import Mathlib

/-!
Verification of the sqlair SQL-preprocessor core against its specification.

The development shallowly embeds, in Lean, the hand-written parser of
`internal/parse/parser.go` (first file version, lines 1-520), the
type-binding stage of `internal/expr/prepare.go` (`BindTypes`,
`bindInputTypes`, `bindOutputTypes`) together with the sibling `Prepare`
implementations, and the value-binding stage of
`internal/expr/bindinputs.go` (`BindInputs`).  Go strings are modelled as
`List Char` with byte positions as `Nat`; Go's `(value, ok, err)` triples
become `Except String (Option _)`; the mutable parser is threaded as an
explicit state record.  Loops are given fuel bounded by the input length
plus a margin; every loop in the source consumes at least one byte per
iteration, so the fuel is never exhausted on the inputs considered.
-/

set_option maxHeartbeats 1000000

deriving instance DecidableEq for Except

namespace Sqlair

/-- Column or Go-type reference: `pfx.name` (source: `parse.FullName`;
the Go field `Prefix` is rendered here as `pfx`). -/
structure FullName where
  pfx : String
  name : String
deriving DecidableEq, Repr, Inhabited

/-- AST part of a parsed statement (source: `parse.QueryPart` with its three
implementations `BypassPart`, `InputPart`, `OutputPart`). -/
inductive QueryPart where
  | bypass (chunk : String)
  | input (source : FullName)
  | output (source : List FullName) (target : List FullName)
deriving DecidableEq, Repr

/-- Parser state (source: `parse.Parser`). -/
structure PState where
  input : List Char
  pos : Nat
  prevPart : Nat
  partStart : Nat
  parts : List QueryPart
deriving Repr

/-- The state produced by `Parser.init`. -/
def initP (s : String) : PState := ⟨s.data, 0, 0, 0, []⟩

/-- Byte of the input at an index (out of range yields the NUL character,
which the source never stores in its inputs). -/
def charAt (l : List Char) (i : Nat) : Char := l.getD i (Char.ofNat 0)

/-- Substring `l(a:b)` of the input, as Go slicing does. -/
def sub (l : List Char) (a b : Nat) : String := String.mk ((l.drop a).take (b - a))

/-- Source: `Parser.peekByte`. -/
def peekByte (p : PState) (b : Char) : Bool :=
  decide (p.pos < p.input.length) && (charAt p.input p.pos == b)

/-- Source: `Parser.skipByte`. -/
def skipByte (p : PState) (b : Char) : Bool × PState :=
  if p.pos < p.input.length ∧ charAt p.input p.pos = b then
    (true, { p with pos := p.pos + 1 })
  else (false, p)

/-- Source: `Parser.skipByteFind` — scan forward for a byte and jump past it. -/
def skipByteFind (p : PState) (b : Char) : Bool × PState :=
  match (p.input.drop p.pos).findIdx? (fun c => c == b) with
  | some k => (true, { p with pos := p.pos + k + 1 })
  | none => (false, p)

/-- Source: `Parser.skipSpaces` (skips only the space character). -/
def skipSpaces (p : PState) : Bool × PState :=
  let k := ((p.input.drop p.pos).takeWhile (fun c => c == ' ')).length
  (decide (k ≠ 0), { p with pos := p.pos + k })

/-- Case-insensitive comparison of two character lists, the use
`strings.EqualFold` is put to by `Parser.skipString` (the inputs involved
are ASCII, where folding is `Char.toLower`). -/
def eqFold (a b : List Char) : Bool := a.map Char.toLower == b.map Char.toLower

/-- Source: `Parser.skipString` — case-insensitive literal match. -/
def skipStringP (p : PState) (s : String) : Bool × PState :=
  let cs := s.data
  if p.pos + cs.length ≤ p.input.length ∧ eqFold ((p.input.drop p.pos).take cs.length) cs then
    (true, { p with pos := p.pos + cs.length })
  else (false, p)

/-- Source: `parse.isNameByte`. -/
def isNameByte (c : Char) : Bool :=
  (65 ≤ c.toNat && c.toNat ≤ 90) || (97 ≤ c.toNat && c.toNat ≤ 122) ||
    (48 ≤ c.toNat && c.toNat ≤ 57) || c == '_'

/-- Source: `Parser.skipName`. -/
def skipName (p : PState) : Bool × PState :=
  if p.input.length ≤ p.pos then (false, p)
  else
    let k := ((p.input.drop p.pos).takeWhile isNameByte).length
    (decide (k ≠ 0), { p with pos := p.pos + k })

/-- Source: `parse.starFlag`. -/
inductive StarFlag where
  | allowStar
  | disallowStar
deriving DecidableEq

/-- Source: `Parser.parseIdentifier` — a name or (when allowed) an asterisk. -/
def parseIdentifier (p : PState) (starF : StarFlag) : String × Bool × PState :=
  let star :=
    match starF with
    | .allowStar => skipByte p '*'
    | .disallowStar => (false, p)
  if star.1 then ("*", true, star.2)
  else
    let idStart := p.pos
    let r := skipName p
    if r.1 then (sub p.input idStart r.2.pos, true, r.2) else ("", false, p)

/-- Source: `Parser.parseColumn` — `name` or `table.name`, stars allowed. -/
def parseColumn (p : PState) : Option FullName × PState :=
  match parseIdentifier p .allowStar with
  | (id, true, p1) =>
    match skipByte p1 '.' with
    | (true, p2) =>
      match parseIdentifier p2 .allowStar with
      | (idCol, true, p3) => (some ⟨id, idCol⟩, p3)
      | (_, false, _) => (none, p)
    | (false, p2) => (some ⟨"", id⟩, p2)
  | (_, false, _) => (none, p)

/-- Source: `Parser.parseGoObject` — a qualified `Type.member` reference. -/
def parseGoObject (p : PState) : Except String (Option FullName) × PState :=
  match parseIdentifier p .disallowStar with
  | (id, true, p1) =>
    match skipByte p1 '.' with
    | (true, p2) =>
      match parseIdentifier p2 .allowStar with
      | (idField, true, p3) => (.ok (some ⟨id, idField⟩), p3)
      | (_, false, p3) => (.error "not a valid identifier for a go object field", p3)
    | (false, p2) => (.error "go objects need to be qualified", p2)
  | (_, false, _) => (.ok none, p)

/-- Comma-separated tail of a bracketed column list (the `for p.skipByte(',')`
loop of `Parser.parseColumns`); `none` signals the restore-and-fail exit. -/
def parseColsLoop (p : PState) (acc : List FullName) : Nat → Option (List FullName) × PState
  | 0 => (none, p)
  | fuel + 1 =>
    match skipByte p ',' with
    | (true, p1) =>
      let p2 := (skipSpaces p1).2
      match parseColumn p2 with
      | (some col, p3) =>
        let p4 := (skipSpaces p3).2
        parseColsLoop p4 (acc ++ [col]) fuel
      | (none, _) => (none, p)
    | (false, _) => (some acc, p)

/-- Source: `Parser.parseColumns` — one column, or a bracketed list. -/
def parseColumns (p : PState) : Option (List FullName) × PState :=
  let p0 := (skipByte p ' ').2
  match parseColumn p0 with
  | (some col, p1) => (some [col], p1)
  | (none, _) =>
    match skipByte p0 '(' with
    | (true, p1) =>
      match parseColumn p1 with
      | (some col, p2) =>
        let p3 := (skipSpaces p2).2
        match parseColsLoop p3 [col] (p.input.length + 1) with
        | (some cols, p4) =>
          match skipByte p4 ')' with
          | (true, p5) => (some cols, p5)
          | (false, _) => (none, p)
        | (none, _) => (none, p)
      | (none, _) => (none, p)
    | (false, _) => (none, p)

/-- Source: `parse.starCount` — asterisks among the `name` fields. -/
def starCount (fns : List FullName) : Nat :=
  (fns.filter (fun fn => fn.name == "*")).length

/-- Comma-separated tail of a bracketed target list (the loop inside
`Parser.parseTargets`). -/
def parseTargetsLoop (p : PState) (acc : List FullName) :
    Nat → Except String (List FullName) × PState
  | 0 => (.error "internal error: fuel exhausted", p)
  | fuel + 1 =>
    match skipByte p ',' with
    | (true, p1) =>
      let p2 := (skipSpaces p1).2
      match parseGoObject p2 with
      | (.ok (some t), p3) =>
        let p4 := (skipSpaces p3).2
        parseTargetsLoop p4 (acc ++ [t]) fuel
      | (.error e, p3) => (.error e, p3)
      | (.ok none, p3) => (.error "not a valid identifier for a go object field", p3)
    | (false, _) => (.ok acc, p)

/-- Source: `Parser.parseTargets` — the `&`-led target part of an output
expression; requires a space before the ampersand. -/
def parseTargets (p : PState) : Except String (Option (List FullName)) × PState :=
  match skipStringP p " &" with
  | (true, p1) =>
    match parseGoObject p1 with
    | (.ok (some target), p2) => (.ok (some [target]), p2)
    | (.error e, p2) => (.error e, p2)
    | (.ok none, _) =>
      match skipByte p1 '(' with
      | (true, p2) =>
        match parseGoObject p2 with
        | (.ok (some t), p3) =>
          let p4 := (skipSpaces p3).2
          match parseTargetsLoop p4 [t] (p.input.length + 1) with
          | (.ok targets, p5) =>
            if starCount targets > 1 then (.error "more than one asterisk", p5)
            else
              match skipByte p5 ')' with
              | (true, p6) => (.ok (some targets), p6)
              | (false, p6) => (.error "expected closing parentheses", p6)
          | (.error e, p5) => (.error e, p5)
        | (.error e, p3) => (.error e, p3)
        | (.ok none, p3) => (.error "not a valid identifier for a go object field", p3)
      | (false, _) => (.ok none, p)
  | (false, _) => (.ok none, p)

/-- The arity-mismatch message of `Parser.parseOutputExpression`. -/
def arityMsg (n m : Nat) : String :=
  "number of cols = " ++ toString n ++ " but number of targets = " ++ toString m

/-- The two validations `Parser.parseOutputExpression` runs after parsing
`cols AS targets`: the arity check, then the asterisk-mixing check (with its
`M` exemption), in source order. -/
def outputExprChecks (cols targets : List FullName) : Option String :=
  if ¬(targets.length = 1 ∧ (targets.headD default).name = "*") ∧
      cols.length ≠ targets.length then
    some (arityMsg cols.length targets.length)
  else if (targets.headD default).pfx ≠ "M" ∧ 1 < cols.length ∧ 1 ≤ starCount cols then
    some "cannot mix asterisk and explicit columns"
  else none

/-- Source: `Parser.parseOutputExpression`. -/
def parseOutputExpression (p : PState) : Except String (Option QueryPart) × PState :=
  match parseTargets p with
  | (.ok (some targets), p1) => (.ok (some (.output [] targets)), p1)
  | (.error e, p1) => (.error ("output expression: " ++ e), p1)
  | (.ok none, _) =>
    match parseColumns p with
    | (some cols, p1) =>
      let p2 := (skipSpaces p1).2
      match skipStringP p2 "AS" with
      | (true, p3) =>
        match parseTargets p3 with
        | (.ok (some targets), p4) =>
          match outputExprChecks cols targets with
          | some msg => (.error ("output expression: " ++ msg), p4)
          | none => (.ok (some (.output cols targets)), p4)
        | (.error e, p4) => (.error ("output expression: " ++ e), p4)
        | (.ok none, _) => (.ok none, p)
      | (false, _) => (.ok none, p)
    | (none, _) => (.ok none, p)

/-- Source: `Parser.parseInputExpression` — `$Type.member`. -/
def parseInputExpression (p : PState) : Except String (Option QueryPart) × PState :=
  match skipByte p '$' with
  | (true, p1) =>
    match parseGoObject p1 with
    | (.ok (some fn), p2) => (.ok (some (.input fn)), p2)
    | (.error e, p2) => (.error ("input expression: " ++ e), p2)
    | (.ok none, _) => (.ok none, p)
  | (false, _) => (.ok none, p)

/-- Scanning loop of `Parser.parseStringLiteral` (`for p.skipByteFind(c)`):
jump to each next quote of the opening kind, accept it as the closer unless
the byte two places back is a backslash. -/
def quoteLoop (c : Char) (openPos : Nat) (p : PState) :
    Nat → Except String (Option QueryPart) × PState
  | 0 => (.error "internal error: fuel exhausted", p)
  | fuel + 1 =>
    match skipByteFind p c with
    | (true, p1) =>
      if charAt p1.input (p1.pos - 2) ≠ '\\' then
        (.ok (some (.bypass (sub p1.input openPos p1.pos))), p1)
      else quoteLoop c openPos p1 fuel
    | (false, p1) =>
      (.error ("missing right quote of char " ++ toString openPos ++ " in string literal"), p1)

/-- Source: `Parser.parseStringLiteral` — a quoted span becomes one bypass
part; a quote directly preceded by a backslash does not open a literal. -/
def parseStringLiteral (p : PState) : Except String (Option QueryPart) × PState :=
  if p.pos < p.input.length then
    let c := charAt p.input p.pos
    if (c = '"' ∨ c = '\x27') ∧ (p.pos = 0 ∨ charAt p.input (p.pos - 1) ≠ '\\') then
      let p1 := (skipByte p c).2
      quoteLoop c p.pos p1 (p.input.length + 1)
    else (.ok none, p)
  else (.ok none, p)

/-- Source: `Parser.add` — flush the pending bypass span, then the part. -/
def addPart (p : PState) (part : Option QueryPart) : PState :=
  let parts1 :=
    if p.prevPart ≠ p.partStart then
      p.parts ++ [QueryPart.bypass (sub p.input p.prevPart p.partStart)]
    else p.parts
  let parts2 := match part with | some q => parts1 ++ [q] | none => parts1
  { p with parts := parts2, prevPart := p.pos, partStart := p.pos }

/-- Bytes `Parser.advance` stops at. -/
def noteable (c : Char) : Bool := c == '$' || c == '"' || c == '\x27' || c == ' '

/-- Source: `Parser.advance` — skip to the next noteable byte, then to the
last byte of a space run. -/
def advance (p : PState) : PState :=
  let pos1 := p.pos + 1
  let pos2 := pos1 + ((p.input.drop pos1).takeWhile (fun c => !(noteable c))).length
  let pos3 :=
    if pos2 < p.input.length ∧ charAt p.input pos2 = ' ' then
      pos2 + ((p.input.drop (pos2 + 1)).takeWhile (fun c => c == ' ')).length
    else pos2
  { p with pos := pos3 }

/-- Main loop of `Parser.Parse`: at each position try, in order, an output
expression, an input expression and a string literal (each successful parse is
pushed with `add`), stop at end of input, and otherwise `advance` when nothing
was recognised. -/
def parseLoop (p : PState) : Nat → Except String PState
  | 0 => .error "internal error: fuel exhausted"
  | fuel + 1 =>
    let p := { p with partStart := p.pos }
    match parseOutputExpression p with
    | (.error e, _) => .error e
    | (.ok op, p1) =>
      let s1 : PState × Bool :=
        match op with
        | some q => (addPart p1 (some q), true)
        | none => (p1, false)
      match parseInputExpression s1.1 with
      | (.error e, _) => .error e
      | (.ok ip, p2) =>
        let s2 : PState × Bool :=
          match ip with
          | some q => (addPart p2 (some q), true)
          | none => (p2, s1.2)
        match parseStringLiteral s2.1 with
        | (.error e, _) => .error e
        | (.ok sp, p3) =>
          let s3 : PState × Bool :=
            match sp with
            | some q => (addPart p3 (some q), true)
            | none => (p3, s2.2)
          if s3.1.pos = s3.1.input.length then .ok s3.1
          else if !s3.2 then parseLoop (advance s3.1) fuel
          else parseLoop s3.1 fuel

/-- Source: `Parser.Parse` — run the loop, flush the trailing bypass, and
wrap any error with the `cannot parse expression:` prefix. -/
def parse (s : String) : Except String (List QueryPart) :=
  match parseLoop (initP s) (s.length + 2) with
  | .error e => .error ("cannot parse expression: " ++ e)
  | .ok p => .ok (addPart p none).parts

/-! ### The reflection value model shared by the binding stages

Go values reaching `Prepare`/`BindTypes`/`BindInputs` are inspected through
`reflect`.  The embedding keeps, of a type, exactly what those stages consult:
its name, its kind, and (for records) its ordered `db` tag list; a value is a
type together with its primitive cells keyed by tag (records) or key (maps). -/

/-- Primitive cell value extracted from a host value. -/
inductive Prim where
  | str (s : String)
  | int (n : Int)
deriving DecidableEq, Repr

/-- Kind of a Go type as `reflect.Kind` renders it. -/
inductive GoKind where
  | kStruct
  | kMap
  | kSlice
  | kInt
  | kString
  | kPtr
  | kInvalid
deriving DecidableEq, Repr

/-- Rendering used by `%s` on a `reflect.Kind`. -/
def GoKind.render : GoKind → String
  | .kStruct => "struct"
  | .kMap => "map"
  | .kSlice => "slice"
  | .kInt => "int"
  | .kString => "string"
  | .kPtr => "ptr"
  | .kInvalid => "invalid"

/-- Identity of a Go type as the binding stages consult it: name, kind and
the ordered `db` tags of a record type. -/
structure GoType where
  name : String
  kind : GoKind
  tags : List String
deriving DecidableEq, Repr

/-- A Go value passed as sample or argument: a concrete struct/map/scalar
value, a pointer to one, a typed nil pointer, or the untyped nil interface. -/
inductive GoValue where
  | val (ty : GoType) (fields : List (String × Prim))
  | ptrV (v : GoValue)
  | nilPtr (elem : GoType)
  | nilV
deriving DecidableEq, Repr

/-- Source: `reflect.Indirect` — unwrap exactly one level of pointer. -/
def indirect : GoValue → GoValue
  | .ptrV v => v
  | v => v

/-- The `reflect.Type` of a value (`reflect.TypeOf` / `Value.Type`); pointer
and invalid values carry only their kind. -/
def typeOfVal : GoValue → GoType
  | .val ty _ => ty
  | .ptrV _ => ⟨"", .kPtr, []⟩
  | .nilPtr _ => ⟨"", .kPtr, []⟩
  | .nilV => ⟨"", .kInvalid, []⟩

/-- Kind of the pointee of a pointer value (`t.Elem().Kind()`). -/
def elemKind : GoValue → GoKind
  | .ptrV v => (typeOfVal v).kind
  | .nilPtr e => e.kind
  | _ => .kInvalid

/-- A resolved type member: the accessor the binding stage records for
`T.member` (the `typeMember` / `typeinfo.Input` / `typeinfo.Output` of the
source, identified by its outer type and member name). -/
structure Member where
  outer : GoType
  name : String
deriving DecidableEq, Repr

/-- Bytewise lexicographic order on character lists, the order
`sort.Strings` sorts by. -/
def leChars : List Char → List Char → Bool
  | [], _ => true
  | _ :: _, [] => false
  | a :: as, b :: bs => if a = b then leChars as bs else decide (a.toNat < b.toNat)

/-- Lexicographic order on strings. -/
def leStr (a b : String) : Bool := leChars a.data b.data

/-- Insertion of a string into a sorted list (ascending). -/
def insertSorted (s : String) : List String → List String
  | [] => [s]
  | t :: rest => if leStr s t then s :: t :: rest else t :: insertSorted s rest

/-- Ascending lexicographic sort, as `sort.Strings` used by `getKeys` and the
star expansion of the source. -/
def sortStrings : List String → List String
  | [] => []
  | s :: rest => insertSorted s (sortStrings rest)

/-- Source: `expr.typeMissingError` (prepare.go) — a referenced type absent
from the samples. -/
def typeMissingError (missingType : String) (existingTypes : List String) : String :=
  if existingTypes.length = 0 then
    "parameter with type \"" ++ missingType ++ "\" missing"
  else
    "parameter with type \"" ++ missingType ++ "\" missing (have \"" ++
      String.intercalate "\", \"" existingTypes ++ "\")"

/-- Type information table built from the samples (`typeNameToInfo` /
`typeinfo.ArgInfo`): the list of sample types, names unique. -/
abbrev ArgInfo : Type := List GoType

/-- Lookup of a type by name in the table. -/
def findType (ai : ArgInfo) (tn : String) : Option GoType :=
  ai.find? (fun t => t.name == tn)

/-- Modelled from the spec: `typeInfo.typeMember` (the typeinfo package is
not in the tree).  A record member must be a registered db tag; an
associative array admits any key; other kinds have no named members. -/
def typeMemberM (t : GoType) (mn : String) : Except String Member :=
  match t.kind with
  | .kStruct =>
      if t.tags.contains mn then .ok ⟨t, mn⟩
      else .error ("type \"" ++ t.name ++ "\" has no \"" ++ mn ++ "\" db tag")
  | .kMap => .ok ⟨t, mn⟩
  | _ => .error ("cannot get named member of " ++ t.kind.render)

/-- Resolution of `T.member` against the table: `info, ok := ti[typeName]`
followed by `info.typeMember(memberName)` (also `ArgInfo.InputMember` /
`ArgInfo.OutputMember` of the missing typeinfo package). -/
def memberLookup (ai : ArgInfo) (tn mn : String) : Except String Member :=
  match findType ai tn with
  | none => .error (typeMissingError tn (sortStrings (ai.map GoType.name)))
  | some t => typeMemberM t mn

/-- Modelled from the spec: `typeInfo.getAllMembers` /
`ArgInfo.AllStructOutputs` (typeinfo package not in the tree) — star
expansion enumerates a record's db tags in ascending lexicographic order, as
the ordering rule of the spec states and the in-tree `getKeys`/`sort.Strings`
and the expected test outputs witness. -/
def getAllMembersM (t : GoType) : Except String (List Member) :=
  match t.kind with
  | .kStruct => .ok ((sortStrings t.tags).map (fun n => ⟨t, n⟩))
  | _ => .error ("cannot use \"" ++ t.name ++ ".*\" with non-struct type")

/-- Source: `colString` usage in prepare.go — a generated column, optionally
table-qualified. -/
def colString (pref n : String) : String :=
  if pref = "" then n else pref ++ "." ++ n

/-- Error-wrapping helper standing for the `defer`red `fmt.Errorf` wrappers. -/
def wrapE (f : String → String) : Except String α → Except String α
  | .error e => .error (f e)
  | .ok a => .ok a

@[simp] theorem bindE_error (e : ε) (f : α → Except ε β) :
    (Except.error e >>= f) = Except.error e := rfl

@[simp] theorem bindE_ok (a : α) (f : α → Except ε β) :
    (Except.ok a >>= f) = f a := rfl

@[simp] theorem wrapE_error (f : String → String) (e : String) :
    wrapE (α := α) f (.error e) = .error (f e) := rfl

@[simp] theorem wrapE_ok (f : String → String) (a : α) :
    wrapE f (.ok a) = .ok a := rfl

/-! ### AST of the modern expression grammar and its typed form

`BindTypes` (prepare.go, second version) consumes expressions of the modern
grammar: bypass chunks, `$T.member` / `$T[:]` inputs, and outputs with
optional source columns.  Its result, consumed by `BindInputs`
(bindinputs.go), is a list of typed expressions. -/

/-- Table column reference of the modern grammar (`columnAccessor`). -/
structure ColumnAccessor where
  tableName : String
  columnName : String
deriving DecidableEq, Repr, Inhabited

/-- Rendering of a column reference (`columnAccessor.String`). -/
def ColumnAccessor.render (c : ColumnAccessor) : String :=
  colString c.tableName c.columnName

/-- Source accessor of an input expression: `$T.member` (`memberAccessor`)
or the slice form `$T[:]` (`sliceAccessor`). -/
inductive ValueAcc where
  | memberAcc (typeName memberName : String)
  | sliceAcc (typeName : String)
deriving DecidableEq, Repr

/-- Source columns of an output expression: absent, a single wildcard
(`t.*` or `*`), or an explicit list. -/
inductive SourceCols where
  | noCols
  | wildcard (tableName : String)
  | standard (cols : List ColumnAccessor)
deriving DecidableEq, Repr

/-- Target accessor of an output expression: `&T.*` (`allMembersAccessor`)
or `&T.member` (`memberAccessor`). -/
inductive TargetAcc where
  | allMembersAcc (typeName : String)
  | memberAcc (typeName memberName : String)
deriving DecidableEq, Repr

/-- Expression of the modern grammar (`inputExpr` / `outputExpr` /
`bypass`), with the raw span kept for diagnostics. -/
inductive ExpressionM where
  | input (sourceType : ValueAcc) (raw : String)
  | output (sourceColumns : SourceCols) (targetTypes : List TargetAcc) (raw : String)
  | bypass (chunk : String)
deriving DecidableEq, Repr

/-- Output column of a typed output expression (`outputColumn`): the SQL
text to select and the member the result is scanned into. -/
structure OutputColumn where
  sql : String
  output : Member
deriving DecidableEq, Repr

/-- Typed expression (`typedInputExpr` / `typedOutputExpr` / `bypass`),
the element type of `TypedExprs`. -/
inductive TypedExprM where
  | input (m : Member)
  | output (ocs : List OutputColumn)
  | bypass (chunk : String)
deriving DecidableEq, Repr

/-- Source: `newOutputColumn` usage — a generated output column. -/
def newOutputColumn (tablePfx colName : String) (m : Member) : OutputColumn :=
  ⟨colString tablePfx colName, m⟩

/-- Modelled from the spec: `typeinfo.GenerateArgInfo` (typeinfo package not
in the tree), following the sample-collection loop of the in-tree `Prepare`
that supports slices (part_003): reject nil, pointers, anonymous and
duplicate types; record named record/map/slice types. -/
def generateArgInfoGo : List GoValue → ArgInfo → Except String ArgInfo
  | [], acc => .ok acc
  | arg :: rest, acc =>
    match arg with
    | .nilV => .error "need valid value, got nil"
    | .ptrV v => .error ("unsupported type: pointer to " ++ (elemKind (GoValue.ptrV v)).render)
    | .nilPtr e => .error ("unsupported type: pointer to " ++ e.kind.render)
    | .val ty _ =>
      match ty.kind with
      | .kStruct | .kMap | .kSlice =>
        if ty.name = "" then .error ("cannot use anonymous " ++ ty.kind.render)
        else
          match acc.find? (fun t => t.name == ty.name) with
          | some dupe =>
              if dupe = ty then
                .error ("found multiple instances of type \"" ++ ty.name ++ "\"")
              else
                .error ("two types found with name \"" ++ ty.name ++ "\": \"" ++
                  dupe.name ++ "\" and \"" ++ ty.name ++ "\"")
          | none => generateArgInfoGo rest (acc ++ [ty])
      | k => .error ("unsupported type: " ++ k.render)

/-- Entry point of the sample collection for `BindTypes`. -/
def generateArgInfo (args : List GoValue) : Except String ArgInfo :=
  generateArgInfoGo args []

/-- Source: `bindInputTypes` (prepare.go, second version) — bind an input
expression to its accessor (the content of the returned `typedInputExpr`);
the slice form is rejected. -/
def bindInputTypes (ai : ArgInfo) (sourceType : ValueAcc) (raw : String) :
    Except String Member :=
  wrapE (fun e => "input expression: " ++ e ++ ": " ++ raw)
    (match sourceType with
     | .memberAcc tn mn => memberLookup ai tn mn
     | .sliceAcc _ => .error "slice support not implemented")

/-- Case 1 of `bindOutputTypes`: generated columns for each target, with an
optional table qualifier. -/
def bindOutGen (ai : ArgInfo) (pref : String) : List TargetAcc → Except String (List OutputColumn)
  | [] => .ok []
  | .allMembersAcc tn :: rest =>
    match findType ai tn with
    | none => .error (typeMissingError tn (sortStrings (ai.map GoType.name)))
    | some t => do
      let members ← getAllMembersM t
      let r ← bindOutGen ai pref rest
      .ok (members.map (fun m => newOutputColumn pref m.name m) ++ r)
  | .memberAcc tn mn :: rest => do
    let m ← memberLookup ai tn mn
    let r ← bindOutGen ai pref rest
    .ok (newOutputColumn pref mn m :: r)

/-- Case 2 of `bindOutputTypes`: explicit columns matched against the tags
of a single starred target type. -/
def bindOutCaseTwo (ai : ArgInfo) (tn : String) : List ColumnAccessor → Except String (List OutputColumn)
  | [] => .ok []
  | c :: rest => do
    let m ← memberLookup ai tn c.columnName
    let r ← bindOutCaseTwo ai tn rest
    .ok (newOutputColumn c.tableName c.columnName m :: r)

/-- Indexed loop of `bindOutputTypes` over targets with explicit source
columns (cases 2 and 3, with the two asterisk/arity rejections). -/
def bindOutStdGo (ai : ArgInfo) (ca : List ColumnAccessor) (targetsLen : Nat) :
    Nat → List TargetAcc → List OutputColumn → Except String (List OutputColumn)
  | _, [], acc => .ok acc
  | _, .allMembersAcc tn :: _, acc =>
    if targetsLen ≠ 1 then .error "invalid asterisk in types"
    else do
      let ocs ← bindOutCaseTwo ai tn ca
      .ok (acc ++ ocs)
  | i, .memberAcc tn mn :: rest, acc =>
    if ca.length ≠ targetsLen then .error "mismatched number of columns and target types"
    else do
      let m ← memberLookup ai tn mn
      let c := ca.getD i default
      bindOutStdGo ai ca targetsLen (i + 1) rest
        (acc ++ [newOutputColumn c.tableName c.columnName m])

/-- Source: `bindOutputTypes` (prepare.go, second version) — expand an
output expression into its typed columns. -/
def bindOutputTypes (ai : ArgInfo) (sourceColumns : SourceCols)
    (targetTypes : List TargetAcc) (raw : String) : Except String (List OutputColumn) :=
  wrapE (fun e => "output expression: " ++ e ++ ": " ++ raw)
    (match sourceColumns with
     | .noCols => bindOutGen ai "" targetTypes
     | .wildcard tp => bindOutGen ai tp targetTypes
     | .standard ca => bindOutStdGo ai ca targetTypes.length 0 targetTypes [])

/-- Rendering of a member in diagnostics (`typeinfo.Output.String`, modelled
from the identical in-tree wording of the sibling `Prepare`). -/
def memberString (m : Member) : String :=
  "member \"" ++ m.name ++ "\" of type \"" ++ m.outer.name ++ "\""

/-- Uniqueness pass of `BindTypes` over the columns of one output expression
(the `outputUsed` map): a repeated `(type, member)` pair fails. -/
def checkDupOutputs : List OutputColumn → List Member → Except String (List Member)
  | [], used => .ok used
  | oc :: rest, used =>
    if oc.output ∈ used then
      .error (memberString oc.output ++ " appears more than once in output expressions")
    else checkDupOutputs rest (oc.output :: used)

/-- Main loop of `BindTypes` over the parsed expressions, threading the set
of output members already used. -/
def bindTypesLoop (ai : ArgInfo) : List ExpressionM → List Member → Except String (List TypedExprM)
  | [], _ => .ok []
  | .input st raw :: rest, used => do
    let m ← bindInputTypes ai st raw
    let r ← bindTypesLoop ai rest used
    .ok (.input m :: r)
  | .output sc tts raw :: rest, used => do
    let ocs ← bindOutputTypes ai sc tts raw
    let used' ← checkDupOutputs ocs used
    let r ← bindTypesLoop ai rest used'
    .ok (.output ocs :: r)
  | .bypass c :: rest, used => do
    let r ← bindTypesLoop ai rest used
    .ok (.bypass c :: r)

/-- Source: `ParsedExpr.BindTypes` (prepare.go, second version) — bind all
expressions against the samples, with the `cannot prepare statement:`
prefix on failure. -/
def bindTypes (pe : List ExpressionM) (args : List GoValue) : Except String (List TypedExprM) :=
  wrapE (fun e => "cannot prepare statement: " ++ e)
    (do
      let ai ← generateArgInfo args
      bindTypesLoop ai pe [])

/-! ### BindInputs (bindinputs.go) -/

/-- Result of a successful `BindInputs` (`expr.PrimedQuery`): the driver SQL,
the named positional parameters, and the ordered output members. -/
structure PrimedQuery where
  sql : String
  params : List (String × Prim)
  outputs : List Member
deriving DecidableEq, Repr

/-- Source: `markerName` — the synthetic output column label. -/
def markerName (n : Nat) : String := "_sqlair_" ++ toString n

/-- The input placeholder `BindInputs` writes for the n-th input. -/
def inputMarker (n : Nat) : String := "@sqlair_" ++ toString n

/-- Argument-validation loop of `BindInputs` (bindinputs.go lines 27-42):
reject nil and nil pointers, unwrap one level of indirection, require a
record or map, reject duplicate types; collect `typeToValue`. -/
def bindInputsArgsGo : List GoValue → List (GoType × GoValue) → Except String (List (GoType × GoValue))
  | [], acc => .ok acc
  | arg :: rest, acc =>
    if (arg == .nilV) || (match arg with | .nilPtr _ => true | _ => false) then
      .error "need struct or map, got nil"
    else
      let v := indirect arg
      let t := typeOfVal v
      if t.kind ≠ .kStruct ∧ t.kind ≠ .kMap then
        .error ("need struct or map, got " ++ t.kind.render)
      else if (acc.map Prod.fst).contains t then
        .error ("type \"" ++ t.name ++ "\" provided more than once")
      else bindInputsArgsGo rest (acc ++ [(t, v)])

/-- Lookup of `typeToValue` by type identity. -/
def lookupTV (tv : List (GoType × GoValue)) (t : GoType) : Option GoValue :=
  (tv.find? (fun p => p.1 == t)).map Prod.snd

/-- Source: `inputMissingError` (bindinputs.go) — a required input type is
absent; a same-named supplied type earns a targeted hint. -/
def inputMissingError (missing : GoType) (tv : List (GoType × GoValue)) : String :=
  match tv.find? (fun p => p.1.name == missing.name) with
  | some p =>
    "parameter with type \"" ++ missing.name ++
      "\" missing, have type with same name: \"" ++ p.1.name ++ "\""
  | none => typeMissingError missing.name (tv.map (fun p => p.1.name))

/-- Modelled from the spec: `typeMember.ValueFromOuter` (typeinfo package
not in the tree) — extract the member's cell from the outer value: record
field by tag, map entry by key (a missing map key fails). -/
def valueFromOuter (m : Member) (v : GoValue) : Except String Prim :=
  match v with
  | .val _ fields =>
    match fields.lookup m.name with
    | some p => .ok p
    | none =>
      .error ("map \"" ++ m.outer.name ++ "\" does not contain key \"" ++ m.name ++ "\"")
  | _ => .error "internal error: cannot get value"

/-- Rendering of one typed output expression inside `BindInputs`: each
column as `sql AS _sqlair_k` with `", "` separators, threading the output
counter; returns the written fragments, the collected output members, and
the new counter. -/
def renderOutCols : List OutputColumn → Nat → List String × List Member × Nat
  | [], o => ([], [], o)
  | [oc], o => ([oc.sql, " AS ", markerName o], [oc.output], o + 1)
  | oc :: oc2 :: rest, o =>
    let r := renderOutCols (oc2 :: rest) (o + 1)
    (oc.sql :: " AS " :: markerName o :: ", " :: r.1, oc.output :: r.2.1, r.2.2)

/-- Mutable state of the `BindInputs` main loop: parameters, outputs, the
used-type set, both counters, and the SQL fragments written so far. -/
structure BState where
  params : List (String × Prim)
  outputs : List Member
  used : List GoType
  inCount : Nat
  outCount : Nat
  frags : List String
deriving DecidableEq, Repr

/-- Main loop of `BindInputs` over the typed expressions (bindinputs.go
lines 51-84). -/
def biLoop (tv : List (GoType × GoValue)) : List TypedExprM → BState → Except String BState
  | [], st => .ok st
  | .input m :: rest, st =>
    match lookupTV tv m.outer with
    | none => .error (inputMissingError m.outer tv)
    | some v => do
      let pv ← valueFromOuter m v
      biLoop tv rest
        { st with
          params := st.params ++ [("sqlair_" ++ toString st.inCount, pv)],
          used := if st.used.contains m.outer then st.used else m.outer :: st.used,
          frags := st.frags ++ [inputMarker st.inCount],
          inCount := st.inCount + 1 }
  | .output ocs :: rest, st =>
    let r := renderOutCols ocs st.outCount
    biLoop tv rest
      { st with
        frags := st.frags ++ r.1,
        outputs := st.outputs ++ r.2.1,
        outCount := r.2.2 }
  | .bypass c :: rest, st => biLoop tv rest { st with frags := st.frags ++ [c] }

/-- Final pass of `BindInputs` (bindinputs.go lines 86-90): every supplied
type must have been consumed by some input marker. -/
def checkAllUsed (tv : List (GoType × GoValue)) (used : List GoType) : Except String Unit :=
  match tv.find? (fun p => !(used.contains p.1)) with
  | some p => .error (p.1.name ++ " not referenced in query")
  | none => .ok ()

/-- Source: `TypedExprs.BindInputs` — build the `PrimedQuery` from the typed
expressions and the call arguments, with the `invalid input parameter:`
prefix on failure. -/
def bindInputs (tes : List TypedExprM) (args : List GoValue) : Except String PrimedQuery :=
  wrapE (fun e => "invalid input parameter: " ++ e)
    (do
      let tv ← bindInputsArgsGo args []
      let st ← biLoop tv tes ⟨[], [], [], 0, 0, []⟩
      let _ ← checkAllUsed tv st.used
      .ok ⟨String.join st.frags, st.params, st.outputs⟩)

/-! ### The first-version Prepare of the expr package (prepare.go, first
version) — the type-binding stage the spec's pointer and nil rules cite. -/

/-- Type reference of the first-version expression AST
(`inputPart.sourceType` / `outputPart.targetTypes` entries). -/
structure TypeRefE where
  typeName : String
  memberName : String
deriving DecidableEq, Repr, Inhabited

/-- Query part consumed by the first-version `Prepare` (`inputPart`,
`outputPart`, `bypassPart`, with raw spans for diagnostics). -/
inductive EQueryPart where
  | input (sourceType : TypeRefE) (raw : String)
  | output (sourceColumns : List ColumnAccessor) (targetTypes : List TypeRefE) (raw : String)
  | bypass (chunk : String)
deriving DecidableEq, Repr

/-- Source: `starCountColumns`. -/
def starCountColumns (cs : List ColumnAccessor) : Nat :=
  (cs.filter (fun c => c.columnName == "*")).length

/-- Source: `starCountTypes`. -/
def starCountTypes (vs : List TypeRefE) : Nat :=
  (vs.filter (fun v => v.memberName == "*")).length

/-- Argument-collection loop of the first-version `Prepare` (prepare.go
lines 236-263): reject nil samples, every pointer sample (naming the
pointee kind), anonymous types, non-record/map kinds, and name clashes;
the reflection extraction `getTypeInfo` itself is modelled as accepting the
well-formed type descriptors, per spec section 4.1. -/
def prepareArgsGo : List GoValue → ArgInfo → Except String ArgInfo
  | [], acc => .ok acc
  | arg :: rest, acc =>
    match arg with
    | .nilV => .error "need struct or map, got nil"
    | .ptrV v => .error ("need struct or map, got pointer to " ++ (elemKind (GoValue.ptrV v)).render)
    | .nilPtr e => .error ("need struct or map, got pointer to " ++ e.kind.render)
    | .val ty _ =>
      match ty.kind with
      | .kStruct | .kMap =>
        if ty.name = "" then .error ("cannot use anonymous " ++ ty.kind.render)
        else
          match acc.find? (fun t => t.name == ty.name) with
          | some dupe =>
              if dupe = ty then
                .error ("found multiple instances of type \"" ++ ty.name ++ "\"")
              else
                .error ("two types found with name \"" ++ ty.name ++ "\": \"" ++
                  dupe.name ++ "\" and \"" ++ ty.name ++ "\"")
          | none => prepareArgsGo rest (acc ++ [ty])
      | k => .error ("need struct or map, got " ++ k.render)

/-- Source: `prepareInput` (prepare.go, first version). -/
def prepareInputV1 (ti : ArgInfo) (src : TypeRefE) (raw : String) : Except String Member :=
  wrapE (fun e => "input expression: " ++ e ++ ": " ++ raw)
    (memberLookup ti src.typeName src.memberName)

/-- Case 1 of the first-version `prepareOutput`: generated columns. -/
def prepareOutV1Gen (ti : ArgInfo) (pref : String) : List TypeRefE → Except String (List OutputColumn)
  | [] => .ok []
  | t :: rest =>
    match findType ti t.typeName with
    | none => .error (typeMissingError t.typeName (sortStrings (ti.map GoType.name)))
    | some info =>
      if t.memberName = "*" then do
        let members ← getAllMembersM info
        let r ← prepareOutV1Gen ti pref rest
        .ok (members.map (fun m => ⟨colString pref m.name, m⟩) ++ r)
      else do
        let tm ← typeMemberM info t.memberName
        let r ← prepareOutV1Gen ti pref rest
        .ok (⟨colString pref t.memberName, tm⟩ :: r)

/-- Case 2 of the first-version `prepareOutput`: explicit columns against a
single starred target. -/
def prepareOutV1Case2 (info : GoType) : List ColumnAccessor → Except String (List OutputColumn)
  | [] => .ok []
  | c :: rest => do
    let tm ← typeMemberM info c.columnName
    let r ← prepareOutV1Case2 info rest
    .ok (⟨c.render, tm⟩ :: r)

/-- Case 3 of the first-version `prepareOutput`: pairwise columns/targets. -/
def prepareOutV1Case3 (ti : ArgInfo) : List (ColumnAccessor × TypeRefE) → Except String (List OutputColumn)
  | [] => .ok []
  | (c, t) :: rest =>
    match findType ti t.typeName with
    | none => .error (typeMissingError t.typeName (sortStrings (ti.map GoType.name)))
    | some info => do
      let tm ← typeMemberM info t.memberName
      let r ← prepareOutV1Case3 ti rest
      .ok (⟨c.render, tm⟩ :: r)

/-- Source: `prepareOutput` (prepare.go, first version) — case analysis on
column/target shapes with the asterisk and arity rejections, in source
order. -/
def prepareOutputV1 (ti : ArgInfo) (cols : List ColumnAccessor) (targets : List TypeRefE)
    (raw : String) : Except String (List OutputColumn) :=
  wrapE (fun e => "output expression: " ++ e ++ ": " ++ raw)
    (let numTypes := targets.length
     let numColumns := cols.length
     let starTypes := starCountTypes targets
     let starColumns := starCountColumns cols
     if numColumns = 0 ∨ (numColumns = 1 ∧ starColumns = 1) then
       prepareOutV1Gen ti (if numColumns > 0 then (cols.headD default).tableName else "") targets
     else if numColumns > 1 ∧ starColumns > 0 then .error "invalid asterisk in columns"
     else if starTypes = 1 ∧ numTypes = 1 then
       match findType ti (targets.headD default).typeName with
       | none =>
         .error (typeMissingError (targets.headD default).typeName (sortStrings (ti.map GoType.name)))
       | some info => prepareOutV1Case2 info cols
     else if starTypes > 0 ∧ numTypes > 1 then .error "invalid asterisk in types"
     else if numColumns = numTypes then prepareOutV1Case3 ti (cols.zip targets)
     else .error "mismatched number of columns and target types")

/-- Part loop of the first-version `Prepare` (prepare.go lines 265-298),
threading the `typeMemberPresent` uniqueness set. -/
def prepareV1Loop (ti : ArgInfo) : List EQueryPart → List Member → Except String (List TypedExprM)
  | [], _ => .ok []
  | .input st raw :: rest, used => do
    let m ← prepareInputV1 ti st raw
    let r ← prepareV1Loop ti rest used
    .ok (.input m :: r)
  | .output cols targets raw :: rest, used => do
    let ocs ← prepareOutputV1 ti cols targets raw
    let used' ← checkDupOutputs ocs used
    let r ← prepareV1Loop ti rest used'
    .ok (.output ocs :: r)
  | .bypass c :: rest, used => do
    let r ← prepareV1Loop ti rest used
    .ok (.bypass c :: r)

/-- Source: `ParsedExpr.Prepare` (prepare.go, first version) — collect the
sample type info, then validate and expand every part. -/
def prepareV1 (pe : List EQueryPart) (args : List GoValue) : Except String (List TypedExprM) :=
  wrapE (fun e => "cannot prepare statement: " ++ e)
    (do
      let ti ← prepareArgsGo args []
      prepareV1Loop ti pe [])

/-! ### Derived views of the typed expressions used by the invariants -/

/-- Success test on an `Except` result. -/
def isOkE : Except ε α → Bool
  | .ok _ => true
  | .error _ => false

/-- Number of driver parameters an expression contributes (one per input). -/
def teInCount : TypedExprM → Nat
  | .input _ => 1
  | _ => 0

/-- Number of output columns an expression contributes. -/
def teOutCount : TypedExprM → Nat
  | .output ocs => ocs.length
  | _ => 0

/-- Inputs occurring strictly before position `k`. -/
def inputsBefore (tes : List TypedExprM) (k : Nat) : Nat :=
  ((tes.take k).map teInCount).sum

/-- Output columns occurring strictly before position `k`. -/
def outsBefore (tes : List TypedExprM) (k : Nat) : Nat :=
  ((tes.take k).map teOutCount).sum

/-- The SQL fragments one typed expression contributes, its input marker and
output markers numbered from the given offsets. -/
def renderAt (te : TypedExprM) (i o : Nat) : List String :=
  match te with
  | .input _ => [inputMarker i]
  | .output ocs => (renderOutCols ocs o).1
  | .bypass c => [c]

/-- Positional rendering of a whole typed statement: the expression at
position `k` is rendered with its input marker numbered by the count of
inputs before it and its output markers numbered by the count of output
columns before them — markers start at 0 and increase strictly
left-to-right. -/
def specFrags (tes : List TypedExprM) : List String :=
  (List.range tes.length).flatMap
    (fun k => renderAt (tes.getD k (.bypass "")) (inputsBefore tes k) (outsBefore tes k))

/-- Outer types of the input accessors of a typed statement. -/
def inputTypes (tes : List TypedExprM) : List GoType :=
  tes.flatMap (fun te => match te with | .input m => [m.outer] | _ => [])

/-- The output members of a typed statement, in emission order. -/
def outputMembers (tes : List TypedExprM) : List Member :=
  tes.flatMap (fun te => match te with | .output ocs => ocs.map (fun oc => oc.output) | _ => [])

/-! ### Concrete exemplars and scenario inputs

The spec's exemplar records: `Person` with db tags `id`, `name`,
`address_id` (declaration order) and `Address` with `id`, `district`,
`street`, as the test suites of the repository declare them. -/

/-- Exemplar record type `Person`. -/
def personType : GoType := ⟨"Person", .kStruct, ["id", "name", "address_id"]⟩

/-- Exemplar record type `Address`. -/
def addressType : GoType := ⟨"Address", .kStruct, ["id", "district", "street"]⟩

/-- Exemplar sequence type `Items`. -/
def itemsType : GoType := ⟨"Items", .kSlice, []⟩

/-- Zero sample of `Person`. -/
def personSample : GoValue :=
  .val personType [("id", .int 0), ("name", .str ""), ("address_id", .int 0)]

/-- Zero sample of `Address`. -/
def addressSample : GoValue :=
  .val addressType [("id", .int 0), ("district", .str ""), ("street", .str "")]

/-- A populated `Address` argument for the call stage. -/
def addressValue : GoValue :=
  .val addressType [("id", .int 25), ("district", .str "E"), ("street", .str "Wallaby Way")]

/-- A sample of the sequence type `Items`. -/
def itemsSample : GoValue := .val itemsType []

/-- Modelled from the spec: the parse, under the modern grammar whose parser
is not in the tree, of `SELECT &Person.* FROM person WHERE name =
$Address.street` — the AST shape the in-tree expression tests display for
this form: `[Bypass[SELECT ] Output[[] [Person.*]] Bypass[ FROM person WHERE
name = ] Input[Address.street]]`. -/
def s1parsed : List ExpressionM :=
  [.bypass "SELECT ",
   .output .noCols [.allMembersAcc "Person"] "&Person.*",
   .bypass " FROM person WHERE name = ",
   .input (.memberAcc "Address" "street") "$Address.street"]

/-- Modelled from the spec: the parse of `SELECT &Person.id, &Person.id
FROM t` under the modern grammar. -/
def s5parsed : List ExpressionM :=
  [.bypass "SELECT ",
   .output .noCols [.memberAcc "Person" "id"] "&Person.id",
   .bypass ", ",
   .output .noCols [.memberAcc "Person" "id"] "&Person.id",
   .bypass " FROM t"]

/-- Modelled from the spec: the parse of `INSERT INTO t VALUES $Items[:]`
under the modern grammar, whose slice form carries a `sliceAccessor`. -/
def s6parsed : List ExpressionM :=
  [.bypass "INSERT INTO t VALUES ",
   .input (.sliceAcc "Items") "$Items[:]"]

/-- The typed statement `BindTypes` produces for scenario S1. -/
def s1tbe : List TypedExprM :=
  [.bypass "SELECT ",
   .output
     [⟨"address_id", ⟨personType, "address_id"⟩⟩,
      ⟨"id", ⟨personType, "id"⟩⟩,
      ⟨"name", ⟨personType, "name"⟩⟩],
   .bypass " FROM person WHERE name = ",
   .input ⟨addressType, "street"⟩]

/-- The primed query `BindInputs` produces for scenario S1. -/
def s1pq : PrimedQuery :=
  ⟨"SELECT address_id AS _sqlair_0, id AS _sqlair_1, name AS _sqlair_2 FROM person WHERE name = @sqlair_0",
   [("sqlair_0", .str "Wallaby Way")],
   [⟨personType, "address_id"⟩, ⟨personType, "id"⟩, ⟨personType, "name"⟩]⟩

/-- Scenario S4 source: an unterminated string literal (the quote opens at
byte index 28). -/
def s4src : String := "SELECT foo FROM t WHERE x = \x27unterminated"

/-- Scenario S3 source: a single-quoted literal containing a doubled
quote. -/
def s3src : String := "SELECT foo FROM t WHERE x = \x27O\x27\x27Donnell\x27"

/-- A source whose `$` marker is immediately preceded by a backslash. -/
def c8src : String := "SELECT foo FROM t WHERE x = \\$Address.street"

/-- A source whose `&` is immediately preceded by a backslash. -/
def c8bSrc : String := "SELECT foo \\&Person.name FROM t"

/-- An output expression mixing an asterisk into an explicit column list
whose arity does not match its single non-starred target. -/
def c10src : String := "SELECT (foo, t.*) AS &P.name FROM t"

/-- An output expression mixing an asterisk into an explicit column list
whose first target type is named `M` and whose arity matches. -/
def c10mSrc : String := "SELECT (foo, t.*) AS &(M.x, M.y) FROM t"

/-! ### The SQL fragments of `BindInputs` are positionally numbered -/

/-- Fragment list of a typed statement with the two counters threaded
explicitly, as the `BindInputs` loop does. -/
def offsetFrags : List TypedExprM → Nat → Nat → List String
  | [], _, _ => []
  | te :: rest, i, o =>
    renderAt te i o ++ offsetFrags rest (i + teInCount te) (o + teOutCount te)

theorem renderOutCols_counter (ocs : List OutputColumn) :
    ∀ o, (renderOutCols ocs o).2.2 = o + ocs.length := by
  induction ocs with
  | nil => intro o; rfl
  | cons oc rest ih =>
    intro o
    cases rest with
    | nil => rfl
    | cons b l =>
      show (renderOutCols (b :: l) (o + 1)).2.2 = _
      rw [ih (o + 1)]
      simp
      omega

theorem biLoop_frags (tv : List (GoType × GoValue)) :
    ∀ (tes : List TypedExprM) (st st' : BState), biLoop tv tes st = .ok st' →
      st'.frags = st.frags ++ offsetFrags tes st.inCount st.outCount := by
  intro tes
  induction tes with
  | nil =>
    intro st st' h
    cases h
    simp [offsetFrags]
  | cons te rest ih =>
    intro st st' h
    cases te with
    | input m =>
      rw [biLoop] at h
      cases hlk : lookupTV tv m.outer with
      | none => rw [hlk] at h; cases h
      | some v =>
        simp only [hlk] at h
        cases hv : valueFromOuter m v with
        | error e => simp only [hv, bindE_error] at h; cases h
        | ok pv =>
          simp only [hv, bindE_ok] at h
          have := ih _ _ h
          simp only [offsetFrags, renderAt, teInCount, teOutCount] at this ⊢
          rw [this]
          simp
    | output ocs =>
      rw [biLoop] at h
      have := ih _ _ h
      simp only [offsetFrags, renderAt, teInCount, teOutCount] at this ⊢
      rw [this]
      simp [renderOutCols_counter]
    | bypass c =>
      rw [biLoop] at h
      have := ih _ _ h
      simp only [offsetFrags, renderAt, teInCount, teOutCount] at this ⊢
      rw [this]
      simp

theorem inputsBefore_cons_succ (te : TypedExprM) (rest : List TypedExprM) (k : Nat) :
    inputsBefore (te :: rest) (k + 1) = teInCount te + inputsBefore rest k := by
  simp [inputsBefore]

theorem outsBefore_cons_succ (te : TypedExprM) (rest : List TypedExprM) (k : Nat) :
    outsBefore (te :: rest) (k + 1) = teOutCount te + outsBefore rest k := by
  simp [outsBefore]

theorem offsetFrags_positional :
    ∀ (tes : List TypedExprM) (i o : Nat),
      offsetFrags tes i o =
        (List.range tes.length).flatMap
          (fun k => renderAt (tes.getD k (.bypass ""))
            (i + inputsBefore tes k) (o + outsBefore tes k)) := by
  intro tes
  induction tes with
  | nil => intro i o; rfl
  | cons te rest ih =>
    intro i o
    rw [offsetFrags, List.length_cons, List.range_succ_eq_map, List.flatMap_cons,
      List.flatMap_map, ih (i + teInCount te) (o + teOutCount te)]
    congr 1
    apply List.flatMap_congr
    intro k _
    rw [List.getD_cons_succ, inputsBefore_cons_succ, outsBefore_cons_succ]
    congr 1 <;> omega

theorem offsetFrags_zero (tes : List TypedExprM) : offsetFrags tes 0 0 = specFrags tes := by
  rw [offsetFrags_positional, specFrags]
  apply List.flatMap_congr
  intro k _
  simp

/-! ### The uniqueness pass of BindTypes admits no repeated output member -/

theorem checkDupOutputs_ok :
    ∀ (ocs : List OutputColumn) (used used' : List Member),
      checkDupOutputs ocs used = .ok used' →
      (ocs.map (fun oc => oc.output)).Nodup ∧
        (∀ m ∈ ocs.map (fun oc => oc.output), m ∉ used) ∧
        ∀ m, m ∈ used' ↔ m ∈ used ∨ m ∈ ocs.map (fun oc => oc.output) := by
  intro ocs
  induction ocs with
  | nil =>
    intro used used' h
    cases h
    simp
  | cons oc rest ih =>
    intro used used' h
    rw [checkDupOutputs] at h
    by_cases hmem : oc.output ∈ used
    · rw [if_pos hmem] at h; cases h
    · rw [if_neg hmem] at h
      obtain ⟨h1, h2, h3⟩ := ih (oc.output :: used) used' h
      refine ⟨?_, ?_, ?_⟩
      · simp only [List.map_cons, List.nodup_cons]
        exact ⟨fun hin => (h2 _ hin) (List.mem_cons_self _ _), h1⟩
      · intro m hm
        simp only [List.map_cons, List.mem_cons] at hm
        cases hm with
        | inl he => rw [he]; exact hmem
        | inr ht => exact fun hu => (h2 m ht) (List.mem_cons_of_mem _ hu)
      · intro m
        rw [h3 m]
        simp only [List.map_cons, List.mem_cons]
        tauto

theorem bindTypesLoop_nodup (ai : ArgInfo) :
    ∀ (pe : List ExpressionM) (used : List Member) (tes : List TypedExprM),
      bindTypesLoop ai pe used = .ok tes →
      (outputMembers tes).Nodup ∧ ∀ m ∈ outputMembers tes, m ∉ used := by
  intro pe
  induction pe with
  | nil =>
    intro used tes h
    cases h
    simp [outputMembers]
  | cons e rest ih =>
    intro used tes h
    cases e with
    | input st raw =>
      rw [bindTypesLoop] at h
      cases hb : bindInputTypes ai st raw with
      | error e2 => simp only [hb, bindE_error] at h; cases h
      | ok m =>
        simp only [hb, bindE_ok] at h
        cases hr : bindTypesLoop ai rest used with
        | error e2 => simp only [hr, bindE_error] at h; cases h
        | ok r =>
          simp only [hr, bindE_ok] at h
          cases h
          have := ih used r hr
          simpa [outputMembers] using this
    | output sc tts raw =>
      rw [bindTypesLoop] at h
      cases hb : bindOutputTypes ai sc tts raw with
      | error e2 => simp only [hb, bindE_error] at h; cases h
      | ok ocs =>
        simp only [hb, bindE_ok] at h
        cases hd : checkDupOutputs ocs used with
        | error e2 => simp only [hd, bindE_error] at h; cases h
        | ok used' =>
          simp only [hd, bindE_ok] at h
          cases hr : bindTypesLoop ai rest used' with
          | error e2 => simp only [hr, bindE_error] at h; cases h
          | ok r =>
            simp only [hr, bindE_ok] at h
            cases h
            obtain ⟨hn1, hn2, hiff⟩ := checkDupOutputs_ok ocs used used' hd
            obtain ⟨hrn, hru⟩ := ih used' r hr
            constructor
            · simp only [outputMembers, List.flatMap_cons]
              apply List.Nodup.append hn1 hrn
              intro a ha har
              exact (hru a har) ((hiff a).mpr (Or.inr ha))
            · intro m hm
              simp only [outputMembers, List.flatMap_cons] at hm
              rcases List.mem_append.mp hm with hin | hin
              · exact hn2 m hin
              · exact fun hu => (hru m hin) ((hiff m).mpr (Or.inl hu))
    | bypass c =>
      rw [bindTypesLoop] at h
      cases hr : bindTypesLoop ai rest used with
      | error e2 => simp only [hr, bindE_error] at h; cases h
      | ok r =>
        simp only [hr, bindE_ok] at h
        cases h
        have := ih used r hr
        simpa [outputMembers] using this

/-! ### Unreferenced argument types make BindInputs fail -/

theorem bindInputsArgsGo_acc :
    ∀ (args : List GoValue) (acc tv : List (GoType × GoValue)),
      bindInputsArgsGo args acc = .ok tv → ∀ x ∈ acc, x ∈ tv := by
  intro args
  induction args with
  | nil =>
    intro acc tv h
    cases h
    exact fun x hx => hx
  | cons arg rest ih =>
    intro acc tv h
    simp only [bindInputsArgsGo] at h
    split at h
    · cases h
    · split at h
      · cases h
      · split at h
        · cases h
        · exact fun x hx => ih _ tv h x (List.mem_append_left _ hx)

theorem bindInputsArgsGo_mem :
    ∀ (args : List GoValue) (acc tv : List (GoType × GoValue)),
      bindInputsArgsGo args acc = .ok tv →
      ∀ v ∈ args, typeOfVal (indirect v) ∈ tv.map Prod.fst := by
  intro args
  induction args with
  | nil =>
    intro acc tv h v hv
    cases hv
  | cons arg rest ih =>
    intro acc tv h v hv
    simp only [bindInputsArgsGo] at h
    split at h
    · cases h
    · split at h
      · cases h
      · split at h
        · cases h
        · rcases List.mem_cons.mp hv with he | ht
          · subst he
            have hin : (typeOfVal (indirect v), indirect v) ∈ tv :=
              bindInputsArgsGo_acc rest _ tv h _
                (List.mem_append_right _ (List.mem_singleton.mpr rfl))
            exact List.mem_map.mpr ⟨_, hin, rfl⟩
          · exact ih _ tv h v ht

theorem biLoop_used (tv : List (GoType × GoValue)) :
    ∀ (tes : List TypedExprM) (st st' : BState), biLoop tv tes st = .ok st' →
      ∀ t ∈ st'.used, t ∈ st.used ∨ t ∈ inputTypes tes := by
  intro tes
  induction tes with
  | nil =>
    intro st st' h t ht
    cases h
    exact Or.inl ht
  | cons te rest ih =>
    intro st st' h t ht
    cases te with
    | input m =>
      rw [biLoop] at h
      cases hlk : lookupTV tv m.outer with
      | none => rw [hlk] at h; cases h
      | some v =>
        simp only [hlk] at h
        cases hv : valueFromOuter m v with
        | error e => simp only [hv, bindE_error] at h; cases h
        | ok pv =>
          simp only [hv, bindE_ok] at h
          rcases ih _ _ h t ht with hu | hr
          · by_cases hc : st.used.contains m.outer = true
            · rw [if_pos hc] at hu
              exact Or.inl hu
            · rw [if_neg hc] at hu
              rcases List.mem_cons.mp hu with he | hs
              · exact Or.inr (by simp [inputTypes, he])
              · exact Or.inl hs
          · exact Or.inr (by simp [inputTypes]; right; simpa [inputTypes] using hr)
    | output ocs =>
      rw [biLoop] at h
      rcases ih _ _ h t ht with hu | hr
      · exact Or.inl hu
      · exact Or.inr (by simpa [inputTypes] using hr)
    | bypass c =>
      rw [biLoop] at h
      rcases ih _ _ h t ht with hu | hr
      · exact Or.inl hu
      · exact Or.inr (by simpa [inputTypes] using hr)

theorem checkAllUsed_ok (tv : List (GoType × GoValue)) (used : List GoType)
    (h : checkAllUsed tv used = .ok ()) : ∀ p ∈ tv, p.1 ∈ used := by
  rw [checkAllUsed] at h
  cases hf : tv.find? (fun p => !(used.contains p.1)) with
  | some p => rw [hf] at h; cases h
  | none =>
    intro p hp
    have := List.find?_eq_none.mp hf p hp
    simp only [Bool.not_eq_true', Bool.not_eq_false] at this
    exact List.elem_iff.mp this

/-! ### Parser-side lemmas -/

theorem arityMsg_ne_mix (n m : Nat) :
    arityMsg n m ≠ "cannot mix asterisk and explicit columns" := by
  intro h
  have h2 := congrArg (fun s => s.data.head?) h
  simp only [arityMsg, String.data_append, List.head?_append] at h2
  have hn : ("number of cols = " : String).data.head? = some 'n' := rfl
  have hc : ("cannot mix asterisk and explicit columns" : String).data.head? = some 'c' := rfl
  rw [hn, hc, Option.or_some, Option.or_some, Option.or_some] at h2
  cases h2

theorem outputExprChecks_mix_iff (cols : List FullName) (t : FullName) (ts : List FullName) :
    outputExprChecks cols (t :: ts) = some "cannot mix asterisk and explicit columns" ↔
      (((t :: ts).length = 1 ∧ t.name = "*") ∨ cols.length = (t :: ts).length) ∧
        t.pfx ≠ "M" ∧ 1 < cols.length ∧ 1 ≤ starCount cols := by
  unfold outputExprChecks
  simp only [List.headD_cons]
  constructor
  · intro h
    by_cases h1 : ¬((t :: ts).length = 1 ∧ t.name = "*") ∧ cols.length ≠ (t :: ts).length
    · rw [if_pos h1] at h
      exact absurd (Option.some.inj h) (arityMsg_ne_mix _ _)
    · rw [if_neg h1] at h
      by_cases h2 : t.pfx ≠ "M" ∧ 1 < cols.length ∧ 1 ≤ starCount cols
      · exact ⟨by tauto, h2⟩
      · rw [if_neg h2] at h; cases h
  · intro hh
    have h1 : ¬(¬((t :: ts).length = 1 ∧ t.name = "*") ∧ cols.length ≠ (t :: ts).length) := by
      tauto
    rw [if_neg h1, if_pos hh.2]

theorem parseStringLiteral_unterminated (p : PState) (c : Char)
    (hpos : p.pos < p.input.length)
    (hc : charAt p.input p.pos = c)
    (hq : c = '"' ∨ c = '\x27')
    (hesc : p.pos = 0 ∨ charAt p.input (p.pos - 1) ≠ '\\')
    (hnone : (p.input.drop (p.pos + 1)).findIdx? (fun ch => ch == c) = none) :
    (parseStringLiteral p).1 =
      .error ("missing right quote of char " ++ toString p.pos ++ " in string literal") := by
  rw [parseStringLiteral, if_pos hpos, hc, if_pos ⟨hq, hesc⟩]
  have hsb : (skipByte p c).2 = { p with pos := p.pos + 1 } := by
    rw [skipByte, if_pos ⟨hpos, hc⟩]
  rw [hsb, quoteLoop, skipByteFind]
  simp only [hnone]

theorem parseTargets_not_marker (p : PState)
    (h : charAt p.input p.pos = '\\' ∨ charAt p.input p.pos = '&') :
    parseTargets p = (.ok none, p) := by
  have hlt : p.pos < p.input.length := by
    by_contra hge
    have : charAt p.input p.pos = Char.ofNat 0 := by
      rw [charAt, List.getD_eq_default]
      omega
    rcases h with h | h <;> rw [this] at h <;> cases h
  have hfold : eqFold ((p.input.drop p.pos).take (" &" : String).data.length)
      (" &" : String).data = false := by
    rw [List.drop_eq_getElem_cons hlt]
    have hg : p.input[p.pos] = charAt p.input p.pos := by
      rw [charAt, List.getD_eq_getElem]
    rw [hg]
    by_contra hne
    have htrue : eqFold (((charAt p.input p.pos :: p.input.drop (p.pos + 1)).take
        (" &" : String).data.length)) (" &" : String).data = true := by
      cases hb : eqFold (((charAt p.input p.pos :: p.input.drop (p.pos + 1)).take
          (" &" : String).data.length)) (" &" : String).data
      · exact absurd hb hne
      · rfl
    rw [eqFold, beq_iff_eq] at htrue
    have h4 : List.take (" &" : String).data.length
        (charAt p.input p.pos :: p.input.drop (p.pos + 1)) =
        charAt p.input p.pos :: List.take 1 (p.input.drop (p.pos + 1)) := rfl
    have h5 : (" &" : String).data = [' ', '&'] := rfl
    rw [h4, h5] at htrue
    simp only [List.map_cons] at htrue
    injection htrue with hhd _
    rcases h with h | h <;> rw [h] at hhd <;> exact absurd hhd (by decide)
  have hskip : skipStringP p " &" = (false, p) := by
    rw [skipStringP]
    rw [if_neg]
    intro ⟨_, h2⟩
    rw [hfold] at h2
    cases h2
  rw [parseTargets, hskip]

/-! ### Claim theorems -/

/-- C1: For the source `SELECT &Person.* FROM person WHERE name =
$Address.street`, with exemplars Person (db tags id, name, address_id) and
Address (id, district, street), `BindTypes` followed by `BindInputs`
produces exactly the SQL `SELECT address_id AS _sqlair_0, id AS _sqlair_1,
name AS _sqlair_2 FROM person WHERE name = @sqlair_0`: star expansion
enumerates the record's tags in ascending lexicographic order and both
marker families are numbered from 0. -/
theorem claim1_s1_bound_sql :
    (bindTypes s1parsed [personSample, addressSample]).bind
      (fun tbe => bindInputs tbe [addressValue]) = Except.ok s1pq ∧
    s1pq.sql = "SELECT address_id AS _sqlair_0, id AS _sqlair_1, name AS _sqlair_2 FROM person WHERE name = @sqlair_0" :=
  ⟨by decide, rfl⟩

/-- C2: For every typed statement (hence for every successful `BindTypes`
result) and every successful `BindInputs`, the emitted SQL is the positional
rendering in which the k-th input part carries marker `@sqlair_k` counted
from 0 left-to-right and the j-th output column carries `_sqlair_j` counted
from 0 left-to-right, so both marker families are numbered from 0 in
strictly increasing left-to-right order. -/
theorem claim2_marker_order (tes : List TypedExprM) (args : List GoValue)
    (pq : PrimedQuery) (h : bindInputs tes args = .ok pq) :
    pq.sql = String.join (specFrags tes) := by
  rw [bindInputs] at h
  cases ha : bindInputsArgsGo args [] with
  | error e => simp only [ha, bindE_error, wrapE_error] at h; cases h
  | ok tv =>
    simp only [ha, bindE_ok] at h
    cases hb : biLoop tv tes ⟨[], [], [], 0, 0, []⟩ with
    | error e => simp only [hb, bindE_error, wrapE_error] at h; cases h
    | ok st =>
      simp only [hb, bindE_ok] at h
      cases hcu : checkAllUsed tv st.used with
      | error e => simp only [hcu, bindE_error, wrapE_error] at h; cases h
      | ok u =>
        cases u
        simp only [hcu, bindE_ok, wrapE_ok] at h
        cases h
        have hf := biLoop_frags tv tes _ _ hb
        simp only [List.nil_append] at hf
        show String.join st.frags = _
        rw [hf, offsetFrags_zero]

/-- Witness for C2 at the typed statement of scenario S1. -/
theorem claim2_marker_order_witness :
    s1pq.sql = String.join (specFrags s1tbe) :=
  claim2_marker_order s1tbe [addressValue] s1pq (by decide)

/-- C3 counterexample: for `SELECT &Person.id, &Person.id FROM t` the error
is not the string `member "id" of type "Person" appears more than once`
(with or without the statement prefix): the code appends ` in output
expressions`. -/
theorem claim3_counterexample :
    bindTypes s5parsed [personSample] ≠
      Except.error "member \"id\" of type \"Person\" appears more than once" ∧
    bindTypes s5parsed [personSample] ≠
      Except.error "cannot prepare statement: member \"id\" of type \"Person\" appears more than once" := by
  constructor <;> decide

/-- C3 (amended): a repeated `(type, member)` pair across the output
expressions makes `BindTypes` fail — equivalently, every successful
`BindTypes` result has pairwise-distinct output members — and for the
example the error is exactly `cannot prepare statement: member "id" of type
"Person" appears more than once in output expressions`. -/
theorem claim3_output_uniqueness :
    (∀ (pe : List ExpressionM) (args : List GoValue) (tes : List TypedExprM),
        bindTypes pe args = .ok tes → (outputMembers tes).Nodup) ∧
    bindTypes s5parsed [personSample] =
      .error "cannot prepare statement: member \"id\" of type \"Person\" appears more than once in output expressions" := by
  constructor
  · intro pe args tes h
    rw [bindTypes] at h
    cases hg : generateArgInfo args with
    | error e => simp only [hg, bindE_error, wrapE_error] at h; cases h
    | ok ai =>
      simp only [hg, bindE_ok] at h
      cases hl : bindTypesLoop ai pe [] with
      | error e => simp only [hl, wrapE_error] at h; cases h
      | ok tes2 =>
        simp only [hl, wrapE_ok] at h
        cases h
        exact (bindTypesLoop_nodup ai pe [] tes hl).1
  · decide

/-- Witness for C3: the universal part applied to the S1 binding. -/
theorem claim3_output_uniqueness_witness : (outputMembers s1tbe).Nodup :=
  claim3_output_uniqueness.1 s1parsed [personSample, addressSample] s1tbe (by decide)

/-- C4 counterexample: `Parse` of the S4 source does not return the error
`cannot parse expression: column 29: missing closing quote in string
literal` the claim states. -/
theorem claim4_counterexample :
    parse s4src ≠
      .error "cannot parse expression: column 29: missing closing quote in string literal" := by
  decide

/-- C4 (amended): parsing `SELECT foo FROM t WHERE x = 'unterminated` fails
with exactly `cannot parse expression: missing right quote of char 28 in
string literal`, carrying the 0-based byte index of the opening quote; and
in general, whenever the literal production opens at an unescaped quote
after which no further quote of the same kind occurs, it fails with
`missing right quote of char N in string literal` where `N` is the index
of the opening quote. -/
theorem claim4_unterminated_literal :
    parse s4src =
      .error "cannot parse expression: missing right quote of char 28 in string literal" ∧
    (∀ (p : PState) (c : Char), p.pos < p.input.length →
      charAt p.input p.pos = c → (c = '"' ∨ c = '\x27') →
      (p.pos = 0 ∨ charAt p.input (p.pos - 1) ≠ '\\') →
      (p.input.drop (p.pos + 1)).findIdx? (fun ch => ch == c) = none →
      (parseStringLiteral p).1 =
        .error ("missing right quote of char " ++ toString p.pos ++ " in string literal")) :=
  ⟨by decide, parseStringLiteral_unterminated⟩

/-- A parser state positioned on an unterminated literal, for the C4
witness. -/
def litState : PState := ⟨("x = \x27abc").data, 4, 0, 0, []⟩

/-- Witness for C4: the general conjunct applied at a concrete state. -/
theorem claim4_unterminated_literal_witness :
    (parseStringLiteral litState).1 =
      .error ("missing right quote of char " ++ toString litState.pos ++ " in string literal") :=
  claim4_unterminated_literal.2 litState '\x27' (by decide) (by decide) (by decide)
    (by decide) (by decide)

/-- C5 counterexample: the S3 source does not parse to the claimed AST
`[Bypass[SELECT foo FROM t WHERE x = ], Bypass['O''Donnell']]`. -/
theorem claim5_counterexample :
    parse s3src ≠
      .ok [.bypass "SELECT foo FROM t WHERE x = ", .bypass "\x27O\x27\x27Donnell\x27"] := by
  decide

/-- C5 (amended): a doubled quote of the same kind closes the literal and
the second quote opens a new one (only a backslash-preceded quote is
treated as escaped), so `SELECT foo FROM t WHERE x = 'O''Donnell'` parses
successfully into three bypass parts: the prefix, `'O'`, and
`'Donnell'`. -/
theorem claim5_doubled_quote :
    parse s3src =
      .ok [.bypass "SELECT foo FROM t WHERE x = ", .bypass "\x27O\x27",
        .bypass "\x27Donnell\x27"] := by
  decide

/-- C6 counterexample: when the sole supplied `Person` value is unreferenced,
the error is not `type "Person" not referenced in query` (with or without
the input prefix): the code writes `Person not referenced in query`. -/
theorem claim6_counterexample :
    bindInputs [.bypass "SELECT x FROM t"] [personSample] ≠
      Except.error "type \"Person\" not referenced in query" ∧
    bindInputs [.bypass "SELECT x FROM t"] [personSample] ≠
      Except.error "invalid input parameter: type \"Person\" not referenced in query" := by
  constructor <;> decide

/-- C6 (amended): if some supplied value's (pointer-unwrapped) type is not
referenced by any input marker then `BindInputs` never returns a
`PrimedQuery`, and when the final check is the one that fires the error is
`T not referenced in query` under the `invalid input parameter:` prefix, as
the concrete conjunct shows for `Person`. -/
theorem claim6_unreferenced_type :
    (∀ (tes : List TypedExprM) (args : List GoValue) (pq : PrimedQuery) (v : GoValue),
        v ∈ args → typeOfVal (indirect v) ∉ inputTypes tes →
        bindInputs tes args ≠ .ok pq) ∧
    bindInputs [.bypass "SELECT x FROM t"] [personSample] =
      .error "invalid input parameter: Person not referenced in query" := by
  constructor
  · intro tes args pq v hv hnin h
    rw [bindInputs] at h
    cases ha : bindInputsArgsGo args [] with
    | error e => simp only [ha, bindE_error, wrapE_error] at h; cases h
    | ok tv =>
      simp only [ha, bindE_ok] at h
      cases hb : biLoop tv tes ⟨[], [], [], 0, 0, []⟩ with
      | error e => simp only [hb, bindE_error, wrapE_error] at h; cases h
      | ok st =>
        simp only [hb, bindE_ok] at h
        cases hcu : checkAllUsed tv st.used with
        | error e => simp only [hcu, bindE_error, wrapE_error] at h; cases h
        | ok u =>
          cases u
          obtain ⟨q, hq, hqe⟩ :=
            List.mem_map.mp (bindInputsArgsGo_mem args [] tv ha v hv)
          have h2 := checkAllUsed_ok tv st.used hcu q hq
          rw [hqe] at h2
          rcases biLoop_used tv tes _ _ hb _ h2 with h3 | h3
          · exact absurd h3 (List.not_mem_nil _)
          · exact hnin h3
  · decide

/-- Witness for C6: the universal part applied at a concrete statement and
argument list. -/
theorem claim6_unreferenced_type_witness :
    bindInputs [.bypass "SELECT x FROM t"] [personSample] ≠ .ok ⟨"", [], []⟩ :=
  claim6_unreferenced_type.1 [.bypass "SELECT x FROM t"] [personSample]
    ⟨"", [], []⟩ personSample (by decide) (by decide)

/-- C7 counterexample: a pointer-to-struct exemplar is rejected by the
type-binding stage where the struct itself is accepted. -/
theorem claim7_counterexample :
    prepareV1 [] [.ptrV personSample] =
      .error "cannot prepare statement: need struct or map, got pointer to struct" ∧
    prepareV1 [] [personSample] = .ok [] := by
  constructor <;> decide

/-- C7 (amended): the type-binding stage (`Prepare`) rejects every pointer
sample with `need struct or map, got pointer to K` and a nil sample with
`need struct or map, got nil`; only the value-binding stage (`BindInputs`)
unwraps one level of indirection — a pointer to a concrete value is
interchangeable with the value there — and a nil pointer at `BindInputs`
yields `need struct or map, got nil` (not `nil parameter`). -/
theorem claim7_pointer_handling :
    (∀ (v : GoValue) (rest : List GoValue) (pe : List EQueryPart),
        prepareV1 pe (.ptrV v :: rest) =
          .error ("cannot prepare statement: need struct or map, got pointer to " ++
            (typeOfVal v).kind.render)) ∧
    (∀ (rest : List GoValue) (pe : List EQueryPart),
        prepareV1 pe (.nilV :: rest) =
          .error "cannot prepare statement: need struct or map, got nil") ∧
    (∀ (ty : GoType) (fields : List (String × Prim)) (rest : List GoValue)
        (tes : List TypedExprM),
        bindInputs tes (.ptrV (.val ty fields) :: rest) =
          bindInputs tes (.val ty fields :: rest)) ∧
    (∀ (e : GoType) (rest : List GoValue) (tes : List TypedExprM),
        bindInputs tes (.nilPtr e :: rest) =
          .error "invalid input parameter: need struct or map, got nil") :=
  ⟨fun _ _ _ => rfl, fun _ _ => rfl, fun _ _ _ _ => rfl, fun _ _ _ => rfl⟩

/-- C8 counterexample: in `SELECT foo FROM t WHERE x = \$Address.street` the
backslash does not escape the `$`: the marker is still parsed as an input
part instead of being emitted verbatim inside the bypass chunk. -/
theorem claim8_counterexample :
    parse c8src ≠ .ok [.bypass c8src] ∧
    parse c8src =
      .ok [.bypass "SELECT foo FROM t WHERE x = \\", .input ⟨"Address", "street"⟩] := by
  constructor <;> decide

/-- C8 (amended): the parser has no backslash escape. A `$` followed by a
qualified reference is parsed as an input marker whatever precedes it (the
counterexample source shows this), while an `&` is recognised only when
preceded by a space, so a backslash-preceded `&` — like any `&` not
preceded by a space — never starts an output marker and stays in bypass. -/
theorem claim8_escape_behaviour :
    (∀ (p : PState), charAt p.input p.pos = '\\' ∨ charAt p.input p.pos = '&' →
        parseTargets p = (.ok none, p)) ∧
    parse c8bSrc = .ok [.bypass c8bSrc] :=
  ⟨parseTargets_not_marker, by decide⟩

/-- A parser state positioned on a backslash, for the C8 witness. -/
def bsState : PState := ⟨("\\&Person.name").data, 0, 0, 0, []⟩

/-- Witness for C8: the general conjunct applied at a concrete state. -/
theorem claim8_escape_behaviour_witness :
    parseTargets bsState = (.ok none, bsState) :=
  claim8_escape_behaviour.1 bsState (by decide)

/-- C9 counterexample: for `INSERT INTO t VALUES $Items[:]` with the slice
exemplar, `BindTypes` does not succeed. -/
theorem claim9_counterexample : isOkE (bindTypes s6parsed [itemsSample]) = false := by
  decide

/-- C9 (amended): slice inputs are rejected by `BindTypes`: for `INSERT
INTO t VALUES $Items[:]` it fails with `cannot prepare statement: input
expression: slice support not implemented: $Items[:]` instead of recording
a placeholder-group marker. -/
theorem claim9_slice_not_implemented :
    bindTypes s6parsed [itemsSample] =
      .error "cannot prepare statement: input expression: slice support not implemented: $Items[:]" := by
  decide

/-- C10 counterexample: for `SELECT (foo, t.*) AS &P.name FROM t` the
claim's three conditions hold (first target type `P` is not `M`, two source
columns, one asterisk), yet the raised error is the arity mismatch, not
`cannot mix asterisk and explicit columns`. -/
theorem claim10_counterexample :
    parse c10src =
      .error "cannot parse expression: output expression: number of cols = 2 but number of targets = 1" ∧
    parse c10src ≠
      .error "cannot parse expression: output expression: cannot mix asterisk and explicit columns" := by
  constructor <;> decide

/-- C10 (amended): in the output-expression validations run after `cols AS
targets`, the error `cannot mix asterisk and explicit columns` is raised iff
the arity check passes (a single starred target, or equal counts) and the
first target's type is not named `M` and there is more than one source
column at least one of which is an asterisk; in particular a source list
mixing `*` with explicit columns under a first target named `M` is accepted
when the arity matches, as the concrete parse shows. -/
theorem claim10_mix_check :
    (∀ (cols : List FullName) (t : FullName) (ts : List FullName),
        outputExprChecks cols (t :: ts) = some "cannot mix asterisk and explicit columns" ↔
          ((((t :: ts).length = 1 ∧ t.name = "*") ∨ cols.length = (t :: ts).length) ∧
            t.pfx ≠ "M" ∧ 1 < cols.length ∧ 1 ≤ starCount cols)) ∧
    parse c10mSrc =
      .ok [.bypass "SELECT",
        .output [⟨"", "foo"⟩, ⟨"t", "*"⟩] [⟨"M", "x"⟩, ⟨"M", "y"⟩],
        .bypass " FROM t"] :=
  ⟨outputExprChecks_mix_iff, by decide⟩

end Sqlair
